import Mathlib

/-!
Verification development for the sentry logrus hook (src/sentry/hook.go).

The Go source is shallowly embedded: machine integers become Nat, Go maps
become association lists with Go assignment/lookup semantics, fallible or
external operations (the raven client, frame symbol resolution through the
runtime, the fresh stack capture at the call site, the delivery outcome
channel) become explicit oracle parameters.  Every definition below is
translated from the source file, except the dataField view, which is absent
from the provided sources and is modelled from the specification.
-/

namespace LogrusSentry

/-! ## Go map model: association lists with assignment and lookup -/

/-- Go map lookup: first binding for the key, if any. -/
def mapLookup {κ α : Type} [DecidableEq κ] : List (κ × α) → κ → Option α
  | [], _ => none
  | (k, v) :: rest, k₀ => if k = k₀ then some v else mapLookup rest k₀

/-- Go map assignment m[k] = v: replace the binding if the key is present,
append it otherwise. -/
def mapInsert {κ α : Type} [DecidableEq κ] : List (κ × α) → κ → α → List (κ × α)
  | [], k₀, v₀ => [(k₀, v₀)]
  | (k, v) :: rest, k₀, v₀ =>
      if k = k₀ then (k, v₀) :: rest else (k, v) :: mapInsert rest k₀ v₀

/-! ## logrus levels and raven severities (hook.go lines 15-24)

logrus levels are the uint32 constants Panic=0, Fatal=1, Error=2, Warn=3,
Info=4, Debug=5; raven severities are strings whose zero value is "". -/

def PanicLevel : Nat := 0
def FatalLevel : Nat := 1
def ErrorLevel : Nat := 2
def WarnLevel : Nat := 3
def InfoLevel : Nat := 4
def DebugLevel : Nat := 5

def DEBUG : String := "debug"
def INFO : String := "info"
def WARNING : String := "warning"
def ERROR : String := "error"
def FATAL : String := "fatal"

/-- The fixed severity table of hook.go lines 16-23. -/
def severityMap : List (Nat × String) :=
  [(DebugLevel, DEBUG), (InfoLevel, INFO), (WarnLevel, WARNING),
   (ErrorLevel, ERROR), (FatalLevel, FATAL), (PanicLevel, FATAL)]

/-- severityMap[entry.Level]: a missing key yields the zero severity "". -/
def severityLookup (l : Nat) : String := (mapLookup severityMap l).getD ""

/-! ## Stack traces -/

/-- A resolved raven stack frame.  The fields produced by runtime.FuncForPC,
Func.FileLine and raven.NewStacktraceFrame are abstracted to the data the
claims inspect; the resolution itself is an oracle. -/
structure RFrame where
  pc : Nat
  file : String
  line : Nat
deriving DecidableEq, Repr

def defaultRFrame : RFrame := { pc := 0, file := "", line := 0 }

/-- raven.Stacktrace: an ordered sequence of frames. -/
structure Stacktrace where
  Frames : List RFrame
deriving DecidableEq, Repr

/-- One link of a Go error chain, described by the capabilities the walk in
findStacktrace probes for.  direct = none models an error that does not
implement the Stacktracer interface; direct = some r models one whose
GetStacktrace() returns r (a possibly nil pointer, hence the inner Option).
foreign likewise models the pkgErrorStackTracer interface, whose
StackTrace() returns a slice that is either nil (inner none) or a non-nil
sequence of frame program counters. -/
structure ErrLink where
  typeName : String
  msg : String
  direct : Option (Option Stacktrace)
  foreign : Option (Option (List Nat))
deriving DecidableEq, Repr

/-- A Go error chain.  base: a link that does not implement causer;
wrapNil: a link whose Cause() returns nil; wrap: a link whose Cause()
returns the next error. -/
inductive GoErr where
  | base : ErrLink → GoErr
  | wrapNil : ErrLink → GoErr
  | wrap : ErrLink → GoErr → GoErr
deriving DecidableEq, Repr

/-- The link carried by the outermost error of a chain. -/
def headLink : GoErr → ErrLink
  | .base l => l
  | .wrapNil l => l
  | .wrap l _ => l

/-- err.Error(): the message of the outermost link. -/
def errMsg (e : GoErr) : String := (headLink e).msg

/-- reflect.TypeOf(err).String(): the dynamic type name of the outermost link. -/
def errTypeName (e : GoErr) : String := (headLink e).typeName

/-- errors.Cause: follow Cause() while the dynamic type implements causer;
returns none when some Cause() call returns nil. -/
def Cause : GoErr → Option GoErr
  | .base l => some (.base l)
  | .wrapNil _ => none
  | .wrap _ c => Cause c

/-- convertStackTrace (hook.go lines 331-350): resolve each raw frame through
the resolution oracle, dropping frames the oracle cannot resolve (the source
drops frames for which raven.NewStacktraceFrame returns nil), then reverse
the sequence so the oldest call comes first. -/
def convertStackTrace (resolve : Nat → Option RFrame) (st : List Nat) : Stacktrace :=
  let frames := st.foldl
    (fun frames pc =>
      match resolve pc with
      | some frame => frames ++ [frame]
      | none => frames)
    ([] : List RFrame)
  { Frames := frames.reverse }

/-- One iteration of the loop body of findStacktrace (hook.go lines 310-316):
probe the Stacktracer interface first, then pkgErrorStackTracer; capturing
either representation clears the other slot. -/
def stStep (l : ErrLink) (st : Option Stacktrace) (se : Option (List Nat)) :
    Option Stacktrace × Option (List Nat) :=
  match l.direct with
  | some ret => (ret, none)
  | none =>
    match l.foreign with
    | some ret => (none, ret)
    | none => (st, se)

/-- The walk of findStacktrace (hook.go lines 308-322): run stStep at every
link, following Cause() until a link without the causer capability (or a nil
cause) ends the chain. -/
def findStacktraceWalk : GoErr → Option Stacktrace → Option (List Nat) →
    Option Stacktrace × Option (List Nat)
  | .base l, st, se => stStep l st se
  | .wrapNil l, st, se => stStep l st se
  | .wrap l c, st, se =>
      let s := stStep l st se
      findStacktraceWalk c s.1 s.2

/-- findStacktrace (hook.go lines 305-327): walk the chain; if the final
state holds a non-nil pkg/errors trace, convert it, else return the direct
slot. -/
def findStacktrace (resolve : Nat → Option RFrame) (err : GoErr) : Option Stacktrace :=
  let s := findStacktraceWalk err none none
  match s.2 with
  | some stackErr => some (convertStackTrace resolve stackErr)
  | none => s.1

/-- Builds the outer error chain wrap(l1, wrap(l2, ..., base innermost)). -/
def mkChain : List ErrLink → ErrLink → GoErr
  | [], innermost => .base innermost
  | l :: rest, innermost => .wrap l (mkChain rest innermost)

/-! ## Log entry field values

A dynamically typed value of the entry data mapping, by the structural shape
the field extractor and formatData probe for. -/

inductive FieldValue where
  | str : String → FieldValue
  | strList : List String → FieldValue
  | strMap : List (String × String) → FieldValue
  | httpReq : Nat → FieldValue
  | userVal : Nat → FieldValue
  | errVal : GoErr → FieldValue
  | jsonVal : Nat → FieldValue
  | stringerVal : String → FieldValue
  | otherVal : Nat → FieldValue
deriving DecidableEq, Repr

/-- formatData (hook.go lines 404-415): a json.Marshaler passes through, an
error becomes its message text, a fmt.Stringer becomes its string form, and
anything else passes through unchanged. -/
def formatData : FieldValue → FieldValue
  | .jsonVal j => .jsonVal j
  | .errVal e => .str (errMsg e)
  | .stringerVal s => .str s
  | v => v

/-! ## The dataField view

Modelled from the spec: the dataField type used by Hook.Fire and
Hook.formatExtraData lives in a repository file that is not among the
provided sources.  Per spec section 4.1, each getter returns the typed value
when the key is present with the right structural shape and reports absence
otherwise, and isOmit keys off the eight well-known field names only. -/

structure dataField where
  data : List (String × FieldValue)

def newDataField (data : List (String × FieldValue)) : dataField := ⟨data⟩

/-- Modelled from the spec: the eight well-known field names. -/
def wellKnownKeys : List String :=
  ["logger", "server_name", "event_id", "tags", "fingerprint",
   "http_request", "user", "error"]

/-- Modelled from the spec: name-based omission, regardless of whether typed
extraction of the well-known field succeeded. -/
def dataField.isOmit (_d : dataField) (k : String) : Bool := wellKnownKeys.contains k

def dataField.len (d : dataField) : Nat := d.data.length

/-- Modelled from the spec: the logger field, when present as a string. -/
def dataField.getLogger (d : dataField) : Option String :=
  match mapLookup d.data "logger" with
  | some (.str s) => some s
  | _ => none

/-- Modelled from the spec: the server_name field, when present as a string. -/
def dataField.getServerName (d : dataField) : Option String :=
  match mapLookup d.data "server_name" with
  | some (.str s) => some s
  | _ => none

/-- Modelled from the spec: the event_id field, when present as a string. -/
def dataField.getEventID (d : dataField) : Option String :=
  match mapLookup d.data "event_id" with
  | some (.str s) => some s
  | _ => none

/-- Modelled from the spec: the tags field, when present as a string map. -/
def dataField.getTags (d : dataField) : Option (List (String × String)) :=
  match mapLookup d.data "tags" with
  | some (.strMap m) => some m
  | _ => none

/-- Modelled from the spec: the fingerprint field, when present as a string
sequence. -/
def dataField.getFingerprint (d : dataField) : Option (List String) :=
  match mapLookup d.data "fingerprint" with
  | some (.strList l) => some l
  | _ => none

/-- Modelled from the spec: the http_request field, when present as an HTTP
request descriptor. -/
def dataField.getHTTPRequest (d : dataField) : Option Nat :=
  match mapLookup d.data "http_request" with
  | some (.httpReq r) => some r
  | _ => none

/-- Modelled from the spec: the user field, when present as a user
descriptor. -/
def dataField.getUser (d : dataField) : Option Nat :=
  match mapLookup d.data "user" with
  | some (.userVal u) => some u
  | _ => none

/-- Modelled from the spec: the error field, when present as an error value. -/
def dataField.getError (d : dataField) : Option GoErr :=
  match mapLookup d.data "error" with
  | some (.errVal e) => some e
  | _ => none

/-! ## Hook configuration (hook.go lines 27-84) -/

/-- StackTraceConfiguration (hook.go lines 67-84). -/
structure StackTraceConfiguration where
  Enable : Bool
  Level : Nat
  Skip : Nat
  Context : Nat
  InAppPrefixes : List String
  SendExceptionType : Bool
  SwitchExceptionTypeAndMessage : Bool
deriving DecidableEq, Repr

/-- The hook state (hook.go lines 27-51).  Timeout is in nanoseconds, as Go
time.Duration is.  ignoreFields and extraFilters are Option so that a nil Go
map is distinguishable from an empty one; the raven client, the mutex and
the wait group are not data the packet pipeline reads. -/
structure Hook where
  Timeout : Nat
  StacktraceConfiguration : StackTraceConfiguration
  levels : List Nat
  serverName : String
  ignoreFields : Option (List String)
  extraFilters : Option (List (String × (FieldValue → FieldValue)))
  asynchronous : Bool

def millisecond : Nat := 1000000

/-! ## Constructors (hook.go lines 112-178) -/

/-- NewWithClientHook (hook.go lines 133-149); the raven client argument
carries no hook state.  It never fails. -/
def NewWithClientHook (levels : List Nat) : Hook :=
  { Timeout := 100 * millisecond
    StacktraceConfiguration :=
      { Enable := false
        Level := ErrorLevel
        Skip := 5
        Context := 0
        InAppPrefixes := []
        SendExceptionType := true
        SwitchExceptionTypeAndMessage := false }
    levels := levels
    serverName := ""
    ignoreFields := some []
    extraFilters := some []
    asynchronous := false }

/-- NewHook (hook.go lines 112-118); clientOk models whether raven.New
accepts the DSN. -/
def NewHook (clientOk : Bool) (levels : List Nat) : Option Hook :=
  if clientOk then some (NewWithClientHook levels) else none

/-- NewWithTagsHook (hook.go lines 123-129); the tags go into the raven
client, not the hook. -/
def NewWithTagsHook (clientOk : Bool) (_tags : List (String × String))
    (levels : List Nat) : Option Hook :=
  if clientOk then some (NewWithClientHook levels) else none

/-- setAsync (hook.go lines 172-178): nil passes through, otherwise the
asynchronous flag is set. -/
def setAsync : Option Hook → Option Hook
  | none => none
  | some hook => some { hook with asynchronous := true }

/-- NewAsyncHook (hook.go lines 153-156). -/
def NewAsyncHook (clientOk : Bool) (levels : List Nat) : Option Hook :=
  setAsync (NewHook clientOk levels)

/-- NewAsyncWithTagsHook (hook.go lines 160-163). -/
def NewAsyncWithTagsHook (clientOk : Bool) (tags : List (String × String))
    (levels : List Nat) : Option Hook :=
  setAsync (NewWithTagsHook clientOk tags levels)

/-- NewAsyncWithClientHook (hook.go lines 167-170). -/
def NewAsyncWithClientHook (levels : List Nat) : Option Hook :=
  setAsync (some (NewWithClientHook levels))

/-! ## The event packet -/

/-- raven.Exception, as built by raven.NewException(cause, stacktrace):
the dynamic type name of the cause, its message, and the attached trace
(a possibly nil pointer). -/
structure Exception where
  excType : String
  value : String
  stacktrace : Option Stacktrace
deriving DecidableEq, Repr

/-- An element of packet.Interfaces.  stIface carries an Option because the
source can append the currentStacktrace pointer itself, which may be nil. -/
inductive PacketInterface where
  | httpReqIface : Nat → PacketInterface
  | userIface : Nat → PacketInterface
  | stIface : Option Stacktrace → PacketInterface
  | excIface : Exception → PacketInterface
deriving DecidableEq, Repr

/-- raven.Packet, restricted to the fields Hook.Fire writes.  extra is an
Option: a nil extra map and an empty one behave differently in the merge
step of Fire (hook.go lines 259-265). -/
structure Packet where
  message : String
  timestamp : Nat
  level : String
  platform : String
  serverName : String
  logger : String
  eventID : String
  tags : List (String × String)
  fingerprint : List String
  culprit : String
  interfaces : List PacketInterface
  extra : Option (List (String × FieldValue))
deriving DecidableEq, Repr

/-- A logrus entry: level, message, timestamp and the data mapping. -/
structure Entry where
  level : Nat
  message : String
  time : Nat
  data : List (String × FieldValue)

/-- The external collaborators of one Fire call, as oracles.
resolveFrame abstracts runtime.FuncForPC + Func.FileLine +
raven.NewStacktraceFrame for a raw program counter (none models a frame
raven.NewStacktraceFrame rejects); freshCapture abstracts
raven.NewStacktrace(skip, context, inAppPrefixes) at the Fire call site (none
models its nil result); culpritOf abstracts the Culprit method invoked on the
currentStacktrace pointer; initExtra is the extra mapping raven.NewPacket
seeds; outcome abstracts the delivery channel race of hook.go lines 283-289:
some e means the outcome e (nil or a delivery error message) arrives before
the timer, none means the timer fires first. -/
structure Oracles where
  resolveFrame : Nat → Option RFrame
  freshCapture : Nat → Nat → List String → Option Stacktrace
  culpritOf : Option Stacktrace → String
  initExtra : Option (List (String × FieldValue))
  outcome : Option (Option String)

/-! ## Hook.Fire (hook.go lines 184-291) -/

/-- raven.NewPacket plus hook.go lines 187-190: message, timestamp, severity
through the fixed table, platform tag; every other field at its zero value
except the extra mapping the packet constructor seeds. -/
def newPacketSeed (o : Oracles) (entry : Entry) : Packet :=
  { message := entry.message
    timestamp := entry.time
    level := severityLookup entry.level
    platform := "go"
    serverName := ""
    logger := ""
    eventID := ""
    tags := []
    fingerprint := []
    culprit := ""
    interfaces := []
    extra := o.initExtra }

/-- hook.go lines 195-197: the hook-level server name default. -/
def setHookServerName (hook : Hook) (p : Packet) : Packet :=
  if hook.serverName ≠ "" then { p with serverName := hook.serverName } else p

/-- hook.go lines 198-200. -/
def setLoggerField (df : dataField) (p : Packet) : Packet :=
  match df.getLogger with
  | some l => { p with logger := l }
  | none => p

/-- hook.go lines 201-203. -/
def setServerNameField (df : dataField) (p : Packet) : Packet :=
  match df.getServerName with
  | some s => { p with serverName := s }
  | none => p

/-- hook.go lines 204-206. -/
def setEventIDField (df : dataField) (p : Packet) : Packet :=
  match df.getEventID with
  | some id => { p with eventID := id }
  | none => p

/-- hook.go lines 207-209. -/
def setTagsField (df : dataField) (p : Packet) : Packet :=
  match df.getTags with
  | some t => { p with tags := t }
  | none => p

/-- hook.go lines 210-212. -/
def setFingerprintField (df : dataField) (p : Packet) : Packet :=
  match df.getFingerprint with
  | some f => { p with fingerprint := f }
  | none => p

/-- hook.go lines 213-215. -/
def setHTTPRequestField (df : dataField) (p : Packet) : Packet :=
  match df.getHTTPRequest with
  | some r => { p with interfaces := p.interfaces ++ [.httpReqIface r] }
  | none => p

/-- hook.go lines 216-218. -/
def setUserField (df : dataField) (p : Packet) : Packet :=
  match df.getUser with
  | some u => { p with interfaces := p.interfaces ++ [.userIface u] }
  | none => p

/-- hook.go lines 194-218, in source order. -/
def applySpecialFields (hook : Hook) (df : dataField) (p : Packet) : Packet :=
  setUserField df (setHTTPRequestField df (setFingerprintField df (setTagsField df
    (setEventIDField df (setServerNameField df (setLoggerField df
      (setHookServerName hook p)))))))

/-- hook.go lines 224-228: the trace resolved from the error chain, or the
fresh capture from the current call location when the chain yields none. -/
def resolvedStacktrace (hook : Hook) (o : Oracles) (err : GoErr) : Option Stacktrace :=
  match findStacktrace o.resolveFrame err with
  | some st => some st
  | none =>
      o.freshCapture hook.StacktraceConfiguration.Skip
        hook.StacktraceConfiguration.Context hook.StacktraceConfiguration.InAppPrefixes

/-- hook.go lines 229-236: raven.NewException on the root cause, with the
type blanked when SendExceptionType is off. -/
def exceptionOf (hook : Hook) (o : Oracles) (err : GoErr) : Exception :=
  { excType :=
      if hook.StacktraceConfiguration.SendExceptionType then
        errTypeName ((Cause err).getD err)
      else ""
    value := errMsg ((Cause err).getD err)
    stacktrace := resolvedStacktrace hook o err }

/-- hook.go lines 220-255: the stack-trace/exception block. -/
def applyStacktrace (hook : Hook) (o : Oracles) (entry : Entry) (df : dataField)
    (p : Packet) : Packet :=
  let stConfig := hook.StacktraceConfiguration
  if stConfig.Enable ∧ entry.level ≤ stConfig.Level then
    match df.getError with
    | some err =>
        let currentStacktrace := resolvedStacktrace hook o err
        let exc := exceptionOf hook o err
        if stConfig.SwitchExceptionTypeAndMessage then
          { p with
              interfaces := p.interfaces ++ [.stIface currentStacktrace]
              culprit := exc.excType ++ ": " ++ o.culpritOf currentStacktrace }
        else
          { p with
              interfaces := p.interfaces ++ [.excIface exc]
              culprit := errMsg err }
    | none =>
        match o.freshCapture stConfig.Skip stConfig.Context stConfig.InAppPrefixes with
        | some currentStacktrace =>
            { p with interfaces := p.interfaces ++ [.stIface (some currentStacktrace)] }
        | none => p
  else
    match df.getError with
    | some err => { p with culprit := errMsg err }
    | none => p

/-- The loop body of formatExtraData (hook.go lines 385-399): skip the
special fields already used by name, skip ignored fields, apply the custom
filter when one is registered and the default formatter otherwise, then
assign into the result map. -/
def extraStep (hook : Hook) (df : dataField) (result : List (String × FieldValue))
    (kv : String × FieldValue) : List (String × FieldValue) :=
  if df.isOmit kv.1 then result
  else if (hook.ignoreFields.getD []).contains kv.1 then result
  else
    let v :=
      match mapLookup (hook.extraFilters.getD []) kv.1 with
      | some fn => fn kv.2
      | none => formatData kv.2
    mapInsert result kv.1 v

/-- formatExtraData (hook.go lines 382-401): every entry field not omitted by
name and not in the ignore set, through its custom filter when one is
registered, the default formatter otherwise. -/
def formatExtraData (hook : Hook) (df : dataField) : List (String × FieldValue) :=
  df.data.foldl (extraStep hook df) []

/-- The merge loop of hook.go lines 262-264: for k, v := range dataExtra,
packet.Extra[k] = v. -/
def mergeMaps (m dataExtra : List (String × FieldValue)) : List (String × FieldValue) :=
  dataExtra.foldl (fun acc kv => mapInsert acc kv.1 kv.2) m

/-- hook.go lines 257-265: install the formatted extra data, merging when the
packet already carries an extra mapping. -/
def applyExtra (hook : Hook) (df : dataField) (p : Packet) : Packet :=
  let dataExtra := formatExtraData hook df
  match p.extra with
  | none => { p with extra := some dataExtra }
  | some m => { p with extra := some (mergeMaps m dataExtra) }

/-- A value Fire can return: a delivery error from the outcome channel, or
the timeout error of hook.go line 288, which names the configured duration. -/
inductive FireErr where
  | delivery : String → FireErr
  | timeoutErr : Nat → FireErr
deriving DecidableEq, Repr

/-- hook.go lines 267-290: asynchronous hooks return nil at once; a zero
timeout returns nil without consulting the outcome; otherwise the outcome
races the timer. -/
def fireReturnValue (hook : Hook) (o : Oracles) : Option FireErr :=
  if hook.asynchronous then none
  else if hook.Timeout = 0 then none
  else
    match o.outcome with
    | some e => Option.map FireErr.delivery e
    | none => some (FireErr.timeoutErr hook.Timeout)

/-- Hook.Fire (hook.go lines 184-291): the packet pipeline in source order,
paired with the value Fire returns. -/
def Fire (hook : Hook) (o : Oracles) (entry : Entry) : Packet × Option FireErr :=
  let packet := newPacketSeed o entry
  let df := newDataField entry.data
  let p1 := applySpecialFields hook df packet
  let p2 := applyStacktrace hook o entry df p1
  let p3 := applyExtra hook df p2
  (p3, fireReturnValue hook o)

/-- True when a packet interface element is a stack trace or an exception
descriptor. -/
def isStExc : PacketInterface → Bool
  | .stIface _ => true
  | .excIface _ => true
  | _ => false

/-- The packet carries a stack-trace or exception interface. -/
def hasStExc (p : Packet) : Bool := p.interfaces.any isStExc

/-- A packet transformation that leaves level, culprit and extra alone and
only appends non-stack-trace, non-exception interface elements. -/
def PreservesCore (f : Packet → Packet) : Prop :=
  ∀ p, (f p).level = p.level ∧ (f p).culprit = p.culprit ∧ (f p).extra = p.extra ∧
    ∃ suffix, (f p).interfaces = p.interfaces ++ suffix ∧ ∀ x ∈ suffix, isStExc x = false

/-! ## Concrete instances used by witnesses and counterexamples -/

def sampleEntry : Entry := { level := ErrorLevel, message := "m", time := 0, data := [] }

def sampleOracle : Oracles :=
  { resolveFrame := fun pc => some { pc := pc, file := "resolved.go", line := 1 }
    freshCapture := fun _ _ _ => none
    culpritOf := fun _ => ""
    initExtra := none
    outcome := none }

def sampleHook : Hook := NewWithClientHook []

def oracleC1 : Oracles := { sampleOracle with initExtra := some [("k", .str "old")] }

def entryC1 : Entry := { sampleEntry with data := [("k", .str "new")] }

def stC2 : Stacktrace := { Frames := [{ pc := 1, file := "outer.go", line := 1 }] }

def linkC2outer : ErrLink :=
  { typeName := "T1", msg := "outer", direct := some (some stC2), foreign := none }

def innerC2 : GoErr :=
  .base { typeName := "T2", msg := "inner", direct := none, foreign := some (some [7]) }

def chainC2 : GoErr := .wrap linkC2outer innerC2

def resolveC2 : Nat → Option RFrame := fun pc => some { pc := pc, file := "inner.go", line := 2 }

def linkC4 : ErrLink := { typeName := "T4", msg := "wrapped", direct := none, foreign := none }

def innerC4 : ErrLink :=
  { typeName := "T4i", msg := "inner", direct := none, foreign := some (some [3, 4]) }

def resolveC4 : Nat → Option RFrame :=
  fun pc => if pc = 3 then none else some { pc := pc, file := "c4.go", line := 4 }

def hookC5 : Hook :=
  { sampleHook with
      StacktraceConfiguration := { sampleHook.StacktraceConfiguration with Enable := true } }

def errC5 : GoErr := .base { typeName := "E5", msg := "kaboom", direct := none, foreign := none }

def entryC5b : Entry := { sampleEntry with data := [("error", .errVal errC5)] }

def errC6 : GoErr := .base { typeName := "MyError", msg := "boom", direct := none, foreign := none }

def stC6 : Stacktrace := { Frames := [{ pc := 9, file := "w.go", line := 9 }] }

def hookC6 : Hook :=
  { sampleHook with
      StacktraceConfiguration :=
        { sampleHook.StacktraceConfiguration with
            Enable := true, SwitchExceptionTypeAndMessage := true } }

def oracleC6 : Oracles :=
  { sampleOracle with freshCapture := fun _ _ _ => some stC6, culpritOf := fun _ => "main.run" }

def entryC6 : Entry := { sampleEntry with data := [("error", .errVal errC6)] }

def hookC3async : Hook := { sampleHook with asynchronous := true }

def hookC3zero : Hook := { sampleHook with Timeout := 0 }

def resolveC8 : Nat → Option RFrame :=
  fun pc => if pc % 2 = 0 then some { pc := pc, file := "c8.go", line := 8 } else none

/-! ## Lemmas about the Go map model -/

theorem mapLookup_mapInsert {κ α : Type} [DecidableEq κ] (m : List (κ × α)) (k k₀ : κ)
    (v : α) :
    mapLookup (mapInsert m k v) k₀ = if k = k₀ then some v else mapLookup m k₀ := by
  induction m with
  | nil => simp [mapInsert, mapLookup]
  | cons kv rest ih =>
      obtain ⟨k₁, v₁⟩ := kv
      simp only [mapInsert, mapLookup]
      by_cases h1 : k₁ = k <;> by_cases h2 : k₁ = k₀ <;> by_cases h3 : k = k₀ <;>
        simp_all [mapLookup]

theorem mapLookup_eq_none {κ α : Type} [DecidableEq κ] (m : List (κ × α)) (k : κ)
    (h : k ∉ m.map Prod.fst) : mapLookup m k = none := by
  induction m with
  | nil => rfl
  | cons kv rest ih =>
      simp only [List.map_cons, List.mem_cons] at h
      push_neg at h
      have hne : ¬kv.1 = k := fun hc => h.1 hc.symm
      simp [mapLookup, hne, ih h.2]

theorem keys_mapInsert {κ α : Type} [DecidableEq κ] (m : List (κ × α)) (k : κ) (v : α) :
    (mapInsert m k v).map Prod.fst =
      if k ∈ m.map Prod.fst then m.map Prod.fst else m.map Prod.fst ++ [k] := by
  induction m with
  | nil => simp [mapInsert]
  | cons kv rest ih =>
      obtain ⟨k₁, v₁⟩ := kv
      simp only [mapInsert, List.map_cons, List.mem_cons]
      by_cases h1 : k₁ = k
      · simp [h1]
      · have : ¬k = k₁ := fun hc => h1 hc.symm
        simp only [if_neg h1, List.map_cons, ih]
        by_cases h2 : k ∈ rest.map Prod.fst <;> simp [h2, this]

theorem nodupKeys_mapInsert {κ α : Type} [DecidableEq κ] (m : List (κ × α)) (k : κ) (v : α)
    (h : (m.map Prod.fst).Nodup) : ((mapInsert m k v).map Prod.fst).Nodup := by
  rw [keys_mapInsert]
  by_cases hk : k ∈ m.map Prod.fst
  · simpa [hk] using h
  · simp only [if_neg hk]
    simp [List.nodup_append, h, hk]

theorem mapLookup_mergeMaps (de : List (String × FieldValue)) :
    ∀ (m : List (String × FieldValue)) (k : String), (de.map Prod.fst).Nodup →
      mapLookup (mergeMaps m de) k = (mapLookup de k).or (mapLookup m k) := by
  induction de with
  | nil => intro m k _; simp [mergeMaps, mapLookup]
  | cons kv rest ih =>
      intro m k h
      obtain ⟨k₀, v₀⟩ := kv
      simp only [List.map_cons, List.nodup_cons] at h
      have hstep : mergeMaps m ((k₀, v₀) :: rest) = mergeMaps (mapInsert m k₀ v₀) rest := rfl
      rw [hstep, ih (mapInsert m k₀ v₀) k h.2, mapLookup_mapInsert]
      by_cases hkk : k₀ = k
      · subst hkk
        have hnone : mapLookup rest k₀ = none := mapLookup_eq_none rest k₀ h.1
        simp [mapLookup, hnone]
      · simp [mapLookup, hkk]

/-! ## Lemmas about stack-trace conversion -/

theorem convertFold (resolve : Nat → Option RFrame) (st : List Nat) :
    ∀ acc : List RFrame,
      st.foldl
        (fun frames pc =>
          match resolve pc with
          | some frame => frames ++ [frame]
          | none => frames)
        acc = acc ++ st.filterMap resolve := by
  induction st with
  | nil => intro acc; simp
  | cons pc rest ih =>
      intro acc
      cases h : resolve pc <;> simp [List.filterMap_cons, h, ih]

theorem convertStackTrace_Frames (resolve : Nat → Option RFrame) (st : List Nat) :
    (convertStackTrace resolve st).Frames = (st.filterMap resolve).reverse := by
  unfold convertStackTrace
  rw [convertFold]
  simp

theorem length_filterMap_sub (resolve : Nat → Option RFrame) (st : List Nat) :
    (st.filterMap resolve).length =
      st.length - (st.filter (fun pc => (resolve pc).isNone)).length := by
  induction st with
  | nil => rfl
  | cons pc rest ih =>
      have hle := List.length_filter_le (fun pc => (resolve pc).isNone) rest
      cases h : resolve pc
      · simp [List.filterMap_cons, List.filter_cons, h, ih]
      · simp [List.filterMap_cons, List.filter_cons, h, ih]
        omega

theorem getD_reverse {α : Type} (l : List α) (i : Nat) (h : i < l.length) (d : α) :
    l.reverse.getD i d = l.getD (l.length - 1 - i) d := by
  rw [List.getD_eq_getElem?_getD, List.getD_eq_getElem?_getD]
  rw [List.getElem?_reverse h]

/-! ## Lemmas about the chain walk -/

theorem walk_mkChain_skip (links : List ErrLink) (innermost : ErrLink)
    (h : ∀ l ∈ links, l.direct = none ∧ l.foreign = none) :
    findStacktraceWalk (mkChain links innermost) none none = stStep innermost none none := by
  induction links with
  | nil => rfl
  | cons l rest ih =>
      have hl := h l (by simp)
      have hrest : ∀ x ∈ rest, x.direct = none ∧ x.foreign = none :=
        fun x hx => h x (by simp [hx])
      have hstep : stStep l none none = (none, none) := by simp [stStep, hl.1, hl.2]
      simp only [mkChain, findStacktraceWalk, hstep]
      exact ih hrest

/-! ## Preservation lemmas for the packet pipeline -/

theorem PreservesCore.comp {f g : Packet → Packet} (hf : PreservesCore f)
    (hg : PreservesCore g) : PreservesCore (fun p => g (f p)) := by
  intro p
  obtain ⟨hl1, hc1, he1, s1, hi1, hs1⟩ := hf p
  obtain ⟨hl2, hc2, he2, s2, hi2, hs2⟩ := hg (f p)
  refine ⟨by rw [hl2, hl1], by rw [hc2, hc1], by rw [he2, he1], s1 ++ s2, ?_, ?_⟩
  · rw [hi2, hi1, List.append_assoc]
  · intro x hx
    rcases List.mem_append.mp hx with h | h
    · exact hs1 x h
    · exact hs2 x h

theorem setHookServerName_preserves (hook : Hook) : PreservesCore (setHookServerName hook) := by
  intro p
  unfold setHookServerName
  split <;> exact ⟨rfl, rfl, rfl, [], by simp, by simp⟩

theorem setLoggerField_preserves (df : dataField) : PreservesCore (setLoggerField df) := by
  intro p
  unfold setLoggerField
  cases df.getLogger <;> exact ⟨rfl, rfl, rfl, [], by simp, by simp⟩

theorem setServerNameField_preserves (df : dataField) :
    PreservesCore (setServerNameField df) := by
  intro p
  unfold setServerNameField
  cases df.getServerName <;> exact ⟨rfl, rfl, rfl, [], by simp, by simp⟩

theorem setEventIDField_preserves (df : dataField) : PreservesCore (setEventIDField df) := by
  intro p
  unfold setEventIDField
  cases df.getEventID <;> exact ⟨rfl, rfl, rfl, [], by simp, by simp⟩

theorem setTagsField_preserves (df : dataField) : PreservesCore (setTagsField df) := by
  intro p
  unfold setTagsField
  cases df.getTags <;> exact ⟨rfl, rfl, rfl, [], by simp, by simp⟩

theorem setFingerprintField_preserves (df : dataField) :
    PreservesCore (setFingerprintField df) := by
  intro p
  unfold setFingerprintField
  cases df.getFingerprint <;> exact ⟨rfl, rfl, rfl, [], by simp, by simp⟩

theorem setHTTPRequestField_preserves (df : dataField) :
    PreservesCore (setHTTPRequestField df) := by
  intro p
  unfold setHTTPRequestField
  cases df.getHTTPRequest with
  | none => exact ⟨rfl, rfl, rfl, [], by simp, by simp⟩
  | some r => exact ⟨rfl, rfl, rfl, [.httpReqIface r], rfl, by simp [isStExc]⟩

theorem setUserField_preserves (df : dataField) : PreservesCore (setUserField df) := by
  intro p
  unfold setUserField
  cases df.getUser with
  | none => exact ⟨rfl, rfl, rfl, [], by simp, by simp⟩
  | some u => exact ⟨rfl, rfl, rfl, [.userIface u], rfl, by simp [isStExc]⟩

theorem applySpecialFields_preserves (hook : Hook) (df : dataField) :
    PreservesCore (applySpecialFields hook df) := by
  have h :=
    (((((((setHookServerName_preserves hook).comp (setLoggerField_preserves df)).comp
      (setServerNameField_preserves df)).comp (setEventIDField_preserves df)).comp
      (setTagsField_preserves df)).comp (setFingerprintField_preserves df)).comp
      (setHTTPRequestField_preserves df)).comp (setUserField_preserves df)
  intro p
  exact h p

theorem applySpecialFields_anyStExc (hook : Hook) (df : dataField) (p : Packet) :
    (applySpecialFields hook df p).interfaces.any isStExc = p.interfaces.any isStExc := by
  obtain ⟨_, _, _, suffix, hi, hs⟩ := applySpecialFields_preserves hook df p
  rw [hi, List.any_append]
  have hsuf : suffix.any isStExc = false := by
    apply List.any_eq_false.mpr
    intro x hx
    simp [hs x hx]
  rw [hsuf, Bool.or_false]

theorem applySpecialFields_no_excIface (hook : Hook) (df : dataField) (p : Packet)
    (hp : p.interfaces = []) (ex : Exception) :
    PacketInterface.excIface ex ∉ (applySpecialFields hook df p).interfaces := by
  obtain ⟨_, _, _, suffix, hi, hs⟩ := applySpecialFields_preserves hook df p
  rw [hi, hp]
  intro hmem
  simp only [List.nil_append] at hmem
  have := hs _ hmem
  simp [isStExc] at this

/-! ## Branch lemmas for the stack-trace block -/

theorem applyStacktrace_cond_err_switch (hook : Hook) (o : Oracles) (entry : Entry)
    (df : dataField) (p : Packet) (err : GoErr)
    (hcond : hook.StacktraceConfiguration.Enable ∧
      entry.level ≤ hook.StacktraceConfiguration.Level)
    (herr : df.getError = some err)
    (hsw : hook.StacktraceConfiguration.SwitchExceptionTypeAndMessage = true) :
    applyStacktrace hook o entry df p =
      { p with
          interfaces := p.interfaces ++ [.stIface (resolvedStacktrace hook o err)]
          culprit := (exceptionOf hook o err).excType ++ ": " ++
            o.culpritOf (resolvedStacktrace hook o err) } := by
  unfold applyStacktrace
  rw [if_pos hcond, herr]
  simp [hsw]

theorem applyStacktrace_cond_err_noswitch (hook : Hook) (o : Oracles) (entry : Entry)
    (df : dataField) (p : Packet) (err : GoErr)
    (hcond : hook.StacktraceConfiguration.Enable ∧
      entry.level ≤ hook.StacktraceConfiguration.Level)
    (herr : df.getError = some err)
    (hsw : hook.StacktraceConfiguration.SwitchExceptionTypeAndMessage = false) :
    applyStacktrace hook o entry df p =
      { p with
          interfaces := p.interfaces ++ [.excIface (exceptionOf hook o err)]
          culprit := errMsg err } := by
  unfold applyStacktrace
  rw [if_pos hcond, herr]
  simp [hsw]

theorem applyStacktrace_cond_noerr_fresh (hook : Hook) (o : Oracles) (entry : Entry)
    (df : dataField) (p : Packet) (st : Stacktrace)
    (hcond : hook.StacktraceConfiguration.Enable ∧
      entry.level ≤ hook.StacktraceConfiguration.Level)
    (herr : df.getError = none)
    (hfresh : o.freshCapture hook.StacktraceConfiguration.Skip
      hook.StacktraceConfiguration.Context hook.StacktraceConfiguration.InAppPrefixes
        = some st) :
    applyStacktrace hook o entry df p =
      { p with interfaces := p.interfaces ++ [.stIface (some st)] } := by
  unfold applyStacktrace
  rw [if_pos hcond, herr, hfresh]

theorem applyStacktrace_cond_noerr_nofresh (hook : Hook) (o : Oracles) (entry : Entry)
    (df : dataField) (p : Packet)
    (hcond : hook.StacktraceConfiguration.Enable ∧
      entry.level ≤ hook.StacktraceConfiguration.Level)
    (herr : df.getError = none)
    (hfresh : o.freshCapture hook.StacktraceConfiguration.Skip
      hook.StacktraceConfiguration.Context hook.StacktraceConfiguration.InAppPrefixes
        = none) :
    applyStacktrace hook o entry df p = p := by
  unfold applyStacktrace
  rw [if_pos hcond, herr, hfresh]

theorem applyStacktrace_nocond_err (hook : Hook) (o : Oracles) (entry : Entry)
    (df : dataField) (p : Packet) (err : GoErr)
    (hcond : ¬(hook.StacktraceConfiguration.Enable ∧
      entry.level ≤ hook.StacktraceConfiguration.Level))
    (herr : df.getError = some err) :
    applyStacktrace hook o entry df p = { p with culprit := errMsg err } := by
  unfold applyStacktrace
  rw [if_neg hcond, herr]

theorem applyStacktrace_nocond_noerr (hook : Hook) (o : Oracles) (entry : Entry)
    (df : dataField) (p : Packet)
    (hcond : ¬(hook.StacktraceConfiguration.Enable ∧
      entry.level ≤ hook.StacktraceConfiguration.Level))
    (herr : df.getError = none) :
    applyStacktrace hook o entry df p = p := by
  unfold applyStacktrace
  rw [if_neg hcond, herr]

theorem applyStacktrace_level_extra (hook : Hook) (o : Oracles) (entry : Entry)
    (df : dataField) (p : Packet) :
    (applyStacktrace hook o entry df p).level = p.level ∧
    (applyStacktrace hook o entry df p).extra = p.extra := by
  by_cases hcond : hook.StacktraceConfiguration.Enable ∧
      entry.level ≤ hook.StacktraceConfiguration.Level
  · cases herr : df.getError with
    | some err =>
        by_cases hsw : hook.StacktraceConfiguration.SwitchExceptionTypeAndMessage = true
        · rw [applyStacktrace_cond_err_switch hook o entry df p err hcond herr hsw]
          exact ⟨rfl, rfl⟩
        · rw [applyStacktrace_cond_err_noswitch hook o entry df p err hcond herr
            (by simpa using hsw)]
          exact ⟨rfl, rfl⟩
    | none =>
        cases hfresh : o.freshCapture hook.StacktraceConfiguration.Skip
            hook.StacktraceConfiguration.Context hook.StacktraceConfiguration.InAppPrefixes with
        | some st =>
            rw [applyStacktrace_cond_noerr_fresh hook o entry df p st hcond herr hfresh]
            exact ⟨rfl, rfl⟩
        | none =>
            rw [applyStacktrace_cond_noerr_nofresh hook o entry df p hcond herr hfresh]
            exact ⟨rfl, rfl⟩
  · cases herr : df.getError with
    | some err =>
        rw [applyStacktrace_nocond_err hook o entry df p err hcond herr]
        exact ⟨rfl, rfl⟩
    | none =>
        rw [applyStacktrace_nocond_noerr hook o entry df p hcond herr]
        exact ⟨rfl, rfl⟩

theorem applyStacktrace_level (hook : Hook) (o : Oracles) (entry : Entry) (df : dataField)
    (p : Packet) : (applyStacktrace hook o entry df p).level = p.level :=
  (applyStacktrace_level_extra hook o entry df p).1

theorem applyStacktrace_extra (hook : Hook) (o : Oracles) (entry : Entry) (df : dataField)
    (p : Packet) : (applyStacktrace hook o entry df p).extra = p.extra :=
  (applyStacktrace_level_extra hook o entry df p).2

/-! ## Lemmas about the extra-data step -/

theorem applyExtra_spec (hook : Hook) (df : dataField) (p : Packet) :
    (applyExtra hook df p).level = p.level ∧ (applyExtra hook df p).culprit = p.culprit ∧
    (applyExtra hook df p).interfaces = p.interfaces ∧
    (applyExtra hook df p).extra = some
      (match p.extra with
       | none => formatExtraData hook df
       | some m => mergeMaps m (formatExtraData hook df)) := by
  cases h : p.extra <;> simp [applyExtra, h]

theorem foldl_preserve {α β : Type} (P : β → Prop) (f : β → α → β)
    (hf : ∀ b a, P b → P (f b a)) : ∀ (l : List α) (b : β), P b → P (l.foldl f b) := by
  intro l
  induction l with
  | nil => intro b hb; exact hb
  | cons a rest ih => intro b hb; exact ih (f b a) (hf b a hb)

theorem formatExtraData_nodupKeys (hook : Hook) (df : dataField) :
    ((formatExtraData hook df).map Prod.fst).Nodup := by
  have hstep : ∀ (b : List (String × FieldValue)) (a : String × FieldValue),
      (b.map Prod.fst).Nodup → ((extraStep hook df b a).map Prod.fst).Nodup := by
    intro b a hb
    unfold extraStep
    split
    · exact hb
    · split
      · exact hb
      · exact nodupKeys_mapInsert _ _ _ hb
  exact foldl_preserve (fun m => ((m.map Prod.fst).Nodup)) (extraStep hook df) hstep
    df.data [] (by simp)

/-! ## Decomposition of Fire -/

theorem Fire_fst (hook : Hook) (o : Oracles) (entry : Entry) :
    (Fire hook o entry).1 =
      applyExtra hook (newDataField entry.data)
        (applyStacktrace hook o entry (newDataField entry.data)
          (applySpecialFields hook (newDataField entry.data) (newPacketSeed o entry))) := rfl

theorem Fire_snd (hook : Hook) (o : Oracles) (entry : Entry) :
    (Fire hook o entry).2 = fireReturnValue hook o := rfl

theorem fire_extra (hook : Hook) (o : Oracles) (entry : Entry) :
    (Fire hook o entry).1.extra = some
      (match o.initExtra with
       | none => formatExtraData hook (newDataField entry.data)
       | some m => mergeMaps m (formatExtraData hook (newDataField entry.data))) := by
  rw [Fire_fst]
  rw [(applyExtra_spec hook (newDataField entry.data) _).2.2.2]
  rw [applyStacktrace_extra]
  rw [(applySpecialFields_preserves hook (newDataField entry.data) _).2.2.1]
  rfl

theorem fire_interfaces (hook : Hook) (o : Oracles) (entry : Entry) :
    (Fire hook o entry).1.interfaces =
      (applyStacktrace hook o entry (newDataField entry.data)
        (applySpecialFields hook (newDataField entry.data) (newPacketSeed o entry))).interfaces := by
  rw [Fire_fst]
  rw [(applyExtra_spec hook (newDataField entry.data) _).2.2.1]

theorem fire_culprit (hook : Hook) (o : Oracles) (entry : Entry) :
    (Fire hook o entry).1.culprit =
      (applyStacktrace hook o entry (newDataField entry.data)
        (applySpecialFields hook (newDataField entry.data) (newPacketSeed o entry))).culprit := by
  rw [Fire_fst]
  rw [(applyExtra_spec hook (newDataField entry.data) _).2.1]

theorem specialFields_anyStExc_false (hook : Hook) (o : Oracles) (entry : Entry) :
    (applySpecialFields hook (newDataField entry.data)
      (newPacketSeed o entry)).interfaces.any isStExc = false := by
  rw [applySpecialFields_anyStExc]
  rfl

/-! ## Claims -/

/-- C3 (confirmed): for every packet, fire returns nil unconditionally in
asynchronous mode; returns nil in synchronous mode with a zero timeout, for
every behaviour of the outcome channel; and in synchronous mode with a
non-zero timeout returns exactly the delivery outcome (nil on success, the
delivery error otherwise) when the outcome arrives first, and a timeout
error naming the configured duration when the timer fires first. -/
theorem claim_C3 (hook : Hook) (o : Oracles) (entry : Entry) :
    (hook.asynchronous = true → (Fire hook o entry).2 = none)
    ∧ (hook.asynchronous = false → hook.Timeout = 0 → (Fire hook o entry).2 = none)
    ∧ (hook.asynchronous = false → hook.Timeout ≠ 0 →
        (Fire hook o entry).2 =
          match o.outcome with
          | some e => Option.map FireErr.delivery e
          | none => some (FireErr.timeoutErr hook.Timeout)) := by
  refine ⟨?_, ?_, ?_⟩
  · intro ha
    rw [Fire_snd]
    simp [fireReturnValue, ha]
  · intro ha ht
    rw [Fire_snd]
    simp [fireReturnValue, ha, ht]
  · intro ha ht
    rw [Fire_snd]
    simp [fireReturnValue, ha, ht]

/-- Witness for C3 at concrete hooks: an asynchronous hook, a zero-timeout
synchronous hook, and the default synchronous hook with a hanging outcome. -/
theorem claim_C3_witness :
    (Fire hookC3async sampleOracle sampleEntry).2 = none
    ∧ (Fire hookC3zero sampleOracle sampleEntry).2 = none
    ∧ (Fire sampleHook sampleOracle sampleEntry).2 =
        some (FireErr.timeoutErr (100 * millisecond)) :=
  ⟨(claim_C3 hookC3async sampleOracle sampleEntry).1 rfl,
   (claim_C3 hookC3zero sampleOracle sampleEntry).2.1 rfl rfl,
   (claim_C3 sampleHook sampleOracle sampleEntry).2.2 rfl (by decide)⟩

/-- C9 (confirmed): the packet severity is the fixed table applied to the
entry level, the table maps debug, info, warn, error, fatal and panic to the
library severities, and every level outside the table yields the empty
default severity. -/
theorem claim_C9 :
    (∀ (hook : Hook) (o : Oracles) (entry : Entry),
        (Fire hook o entry).1.level = severityLookup entry.level)
    ∧ severityLookup DebugLevel = DEBUG
    ∧ severityLookup InfoLevel = INFO
    ∧ severityLookup WarnLevel = WARNING
    ∧ severityLookup ErrorLevel = ERROR
    ∧ severityLookup FatalLevel = FATAL
    ∧ severityLookup PanicLevel = FATAL
    ∧ (∀ l : Nat, l ∉ severityMap.map Prod.fst → severityLookup l = "") := by
  refine ⟨?_, rfl, rfl, rfl, rfl, rfl, rfl, ?_⟩
  · intro hook o entry
    rw [Fire_fst]
    rw [(applyExtra_spec hook (newDataField entry.data) _).1]
    rw [applyStacktrace_level]
    rw [(applySpecialFields_preserves hook (newDataField entry.data) _).1]
    rfl
  · intro l hl
    unfold severityLookup
    rw [mapLookup_eq_none _ _ hl]
    rfl

/-- Witness for C9: the mapped level of a concrete fire, and the default
severity at the unmapped level 17. -/
theorem claim_C9_witness :
    (Fire sampleHook sampleOracle sampleEntry).1.level = severityLookup sampleEntry.level
    ∧ severityLookup 17 = "" :=
  ⟨claim_C9.1 sampleHook sampleOracle sampleEntry,
   claim_C9.2.2.2.2.2.2.2 17 (by decide)⟩

/-- C10 (confirmed): every successful constructor yields the configuration
of NewWithClientHook — timeout 100 milliseconds, stack traces disabled with
capture level Error, skip 5, context 0, no in-app prefixes, exception type
enabled, empty non-nil ignore set and extra-filter map, synchronous — and
each asynchronous variant differs from it only in the asynchronous flag. -/
theorem claim_C10 (levels : List Nat) (tags : List (String × String)) :
    (NewWithClientHook levels).Timeout = 100 * millisecond
    ∧ (NewWithClientHook levels).StacktraceConfiguration.Enable = false
    ∧ (NewWithClientHook levels).StacktraceConfiguration.Level = ErrorLevel
    ∧ (NewWithClientHook levels).StacktraceConfiguration.Skip = 5
    ∧ (NewWithClientHook levels).StacktraceConfiguration.Context = 0
    ∧ (NewWithClientHook levels).StacktraceConfiguration.InAppPrefixes = []
    ∧ (NewWithClientHook levels).StacktraceConfiguration.SendExceptionType = true
    ∧ (NewWithClientHook levels).ignoreFields = some []
    ∧ (NewWithClientHook levels).extraFilters = some []
    ∧ (NewWithClientHook levels).asynchronous = false
    ∧ NewHook true levels = some (NewWithClientHook levels)
    ∧ NewWithTagsHook true tags levels = some (NewWithClientHook levels)
    ∧ NewAsyncWithClientHook levels = some { NewWithClientHook levels with asynchronous := true }
    ∧ NewAsyncHook true levels = some { NewWithClientHook levels with asynchronous := true }
    ∧ NewAsyncWithTagsHook true tags levels =
        some { NewWithClientHook levels with asynchronous := true } :=
  ⟨rfl, rfl, rfl, rfl, rfl, rfl, rfl, rfl, rfl, rfl, rfl, rfl, rfl, rfl, rfl⟩

/-- C8 (confirmed): converting a foreign-format trace is total — it always
returns a trace whose frames are exactly the resolvable raw frames, reversed;
unresolvable frames are dropped silently, so the frame count is the raw count
minus the failures, and a frame appears in the output exactly when some raw
program counter resolves to it. -/
theorem claim_C8 (resolve : Nat → Option RFrame) (st : List Nat) :
    (convertStackTrace resolve st).Frames = (st.filterMap resolve).reverse
    ∧ (convertStackTrace resolve st).Frames.length =
        st.length - (st.filter (fun pc => (resolve pc).isNone)).length
    ∧ ∀ f : RFrame,
        f ∈ (convertStackTrace resolve st).Frames ↔ ∃ pc ∈ st, resolve pc = some f := by
  have hf := convertStackTrace_Frames resolve st
  refine ⟨hf, ?_, ?_⟩
  · rw [hf, List.length_reverse, length_filterMap_sub]
  · intro f
    rw [hf, List.mem_reverse, List.mem_filterMap]

/-- C4 (confirmed): on a chain whose other links expose no trace and whose
innermost link exposes a foreign-format trace of M raw frames, the resolver
returns exactly the resolvable frames, M minus the resolution failures many,
reversed so that output frame i is retained frame count minus one minus i. -/
theorem claim_C4 (resolve : Nat → Option RFrame) (links : List ErrLink)
    (innermost : ErrLink) (raw : List Nat)
    (hlinks : ∀ l ∈ links, l.direct = none ∧ l.foreign = none)
    (hd : innermost.direct = none) (hf : innermost.foreign = some (some raw)) :
    ∃ st, findStacktrace resolve (mkChain links innermost) = some st
      ∧ st.Frames = (raw.filterMap resolve).reverse
      ∧ st.Frames.length = raw.length - (raw.filter (fun pc => (resolve pc).isNone)).length
      ∧ ∀ i, i < st.Frames.length →
          st.Frames.getD i defaultRFrame =
            (raw.filterMap resolve).getD (st.Frames.length - 1 - i) defaultRFrame := by
  have hwalk : findStacktraceWalk (mkChain links innermost) none none = (none, some raw) := by
    rw [walk_mkChain_skip links innermost hlinks]
    simp [stStep, hd, hf]
  refine ⟨convertStackTrace resolve raw, ?_, convertStackTrace_Frames resolve raw, ?_, ?_⟩
  · unfold findStacktrace
    rw [hwalk]
  · rw [convertStackTrace_Frames, List.length_reverse, length_filterMap_sub]
  · intro i hi
    rw [convertStackTrace_Frames] at hi ⊢
    rw [List.length_reverse] at hi ⊢
    exact getD_reverse _ i hi _

/-- Witness for C4: a two-link chain whose innermost link carries the raw
frames 3 and 4, of which 3 does not resolve. -/
theorem claim_C4_witness :
    ∃ st, findStacktrace resolveC4 (mkChain [linkC4] innerC4) = some st
      ∧ st.Frames = ([3, 4].filterMap resolveC4).reverse
      ∧ st.Frames.length =
          [3, 4].length - ([3, 4].filter (fun pc => (resolveC4 pc).isNone)).length
      ∧ ∀ i, i < st.Frames.length →
          st.Frames.getD i defaultRFrame =
            ([3, 4].filterMap resolveC4).getD (st.Frames.length - 1 - i) defaultRFrame :=
  claim_C4 resolveC4 [linkC4] innerC4 [3, 4] (by decide) rfl rfl

/-- Counterexample to C2 as stated: a chain whose outermost link exposes a
direct-format trace and whose inner link exposes a foreign-format trace; the
resolver does not return the outer direct trace — it returns the converted
inner foreign one. -/
theorem claim_C2_counterexample :
    findStacktrace resolveC2 chainC2 ≠ some stC2
    ∧ findStacktrace resolveC2 chainC2 = some (convertStackTrace resolveC2 [7]) := by
  exact ⟨by decide, rfl⟩

/-- C2 (amended): the walk keeps overwriting its captured slots, so the link
exposing a trace encountered last — the innermost such link — wins.  When the
outermost error exposes a direct-format trace but the walk of the wrapped
chain ends with a captured foreign-format trace, the resolver returns the
conversion of that inner foreign trace and ignores the outer direct one;
capturing one representation still clears the other. -/
theorem claim_C2 (resolve : Nat → Option RFrame) (l : ErrLink) (c : GoErr)
    (st0 : Option Stacktrace) (raw : List Nat)
    (hd : l.direct = some st0)
    (hw : findStacktraceWalk c st0 none = (none, some raw)) :
    findStacktrace resolve (.wrap l c) = some (convertStackTrace resolve raw) := by
  unfold findStacktrace
  have hstep : stStep l none none = (st0, none) := by simp [stStep, hd]
  simp only [findStacktraceWalk, hstep]
  rw [hw]

/-- Witness for C2: the concrete two-link chain of the counterexample. -/
theorem claim_C2_witness :
    findStacktrace resolveC2 (GoErr.wrap linkC2outer innerC2) =
      some (convertStackTrace resolveC2 [7]) :=
  claim_C2 resolveC2 linkC2outer innerC2 (some stC2) [7] rfl rfl

/-- Counterexample to C1 as stated: the packet extra is seeded with the key k
bound to old, the entry carries the field k bound to new, and after the merge
the packet holds the entry-derived value, not the seeded one. -/
theorem claim_C1_counterexample :
    mapLookup (((Fire sampleHook oracleC1 entryC1).1.extra).getD []) "k" =
      some (FieldValue.str "new")
    ∧ mapLookup (((Fire sampleHook oracleC1 entryC1).1.extra).getD []) "k" ≠
      some (FieldValue.str "old") :=
  ⟨rfl, by decide⟩

/-- C1 (amended): when the built packet already carries an extra mapping
before the extra-data step, the merge overwrites on key conflicts — for every
key, the merged packet holds the entry-derived formatted value when the
extra-data step produces one, and the seeded value only otherwise. -/
theorem claim_C1 (hook : Hook) (o : Oracles) (entry : Entry)
    (m : List (String × FieldValue)) (hm : o.initExtra = some m) (k : String) :
    mapLookup (((Fire hook o entry).1.extra).getD []) k =
      (mapLookup (formatExtraData hook (newDataField entry.data)) k).or (mapLookup m k) := by
  rw [fire_extra, hm]
  show mapLookup (mergeMaps m (formatExtraData hook (newDataField entry.data))) k = _
  exact mapLookup_mergeMaps _ m k (formatExtraData_nodupKeys hook (newDataField entry.data))

/-- Witness for C1 at the counterexample instance. -/
theorem claim_C1_witness :
    mapLookup (((Fire sampleHook oracleC1 entryC1).1.extra).getD []) "k" =
      (mapLookup (formatExtraData sampleHook (newDataField entryC1.data)) "k").or
        (mapLookup [("k", FieldValue.str "old")] "k") :=
  claim_C1 sampleHook oracleC1 entryC1 [("k", FieldValue.str "old")] rfl "k"

/-- Counterexample to C5 as stated: stack traces are enabled and the entry
level is at the configured level, yet no stack-trace or exception interface
is added, because the entry has no error field and the fresh capture at the
call site is empty. -/
theorem claim_C5_counterexample :
    (hookC5.StacktraceConfiguration.Enable = true
      ∧ sampleEntry.level ≤ hookC5.StacktraceConfiguration.Level)
    ∧ hasStExc (Fire hookC5 sampleOracle sampleEntry).1 = false :=
  ⟨by decide, rfl⟩

/-- C5 (amended): the stack-trace or exception interface is added exactly
when stack traces are enabled, the entry level is at-or-above the configured
level, and either the field view yields an error value or the fresh capture
at the call site is non-empty; and when the enabled-and-level condition fails
but an error value is present, the culprit is set to the error message and no
stack-trace or exception interface is appended. -/
theorem claim_C5 (hook : Hook) (o : Oracles) (entry : Entry) :
    (hasStExc (Fire hook o entry).1 = true ↔
      ((hook.StacktraceConfiguration.Enable = true
          ∧ entry.level ≤ hook.StacktraceConfiguration.Level)
        ∧ ((newDataField entry.data).getError.isSome = true
            ∨ (o.freshCapture hook.StacktraceConfiguration.Skip
                hook.StacktraceConfiguration.Context
                hook.StacktraceConfiguration.InAppPrefixes).isSome = true)))
    ∧ (∀ err : GoErr,
        ¬(hook.StacktraceConfiguration.Enable = true
            ∧ entry.level ≤ hook.StacktraceConfiguration.Level) →
        (newDataField entry.data).getError = some err →
          (Fire hook o entry).1.culprit = errMsg err
          ∧ hasStExc (Fire hook o entry).1 = false) := by
  have hany1 := specialFields_anyStExc_false hook o entry
  constructor
  · by_cases hcond : hook.StacktraceConfiguration.Enable = true
        ∧ entry.level ≤ hook.StacktraceConfiguration.Level
    · cases herr : (newDataField entry.data).getError with
      | some err =>
          by_cases hsw : hook.StacktraceConfiguration.SwitchExceptionTypeAndMessage = true
          · have hEq : hasStExc (Fire hook o entry).1 = true := by
              unfold hasStExc
              rw [fire_interfaces,
                applyStacktrace_cond_err_switch hook o entry _ _ err hcond herr hsw]
              simp [List.any_append, hany1, isStExc]
            rw [hEq]
            exact iff_of_true rfl ⟨hcond, Or.inl rfl⟩
          · have hEq : hasStExc (Fire hook o entry).1 = true := by
              unfold hasStExc
              rw [fire_interfaces,
                applyStacktrace_cond_err_noswitch hook o entry _ _ err hcond herr
                  (by simpa using hsw)]
              simp [List.any_append, hany1, isStExc]
            rw [hEq]
            exact iff_of_true rfl ⟨hcond, Or.inl rfl⟩
      | none =>
          cases hfresh : o.freshCapture hook.StacktraceConfiguration.Skip
              hook.StacktraceConfiguration.Context
              hook.StacktraceConfiguration.InAppPrefixes with
          | some st =>
              have hEq : hasStExc (Fire hook o entry).1 = true := by
                unfold hasStExc
                rw [fire_interfaces,
                  applyStacktrace_cond_noerr_fresh hook o entry _ _ st hcond herr hfresh]
                simp [List.any_append, hany1, isStExc]
              rw [hEq]
              exact iff_of_true rfl ⟨hcond, Or.inr rfl⟩
          | none =>
              have hEq : hasStExc (Fire hook o entry).1 = false := by
                unfold hasStExc
                rw [fire_interfaces,
                  applyStacktrace_cond_noerr_nofresh hook o entry _ _ hcond herr hfresh]
                exact hany1
              rw [hEq]
              constructor
              · intro hfalse
                exact absurd hfalse (by simp)
              · rintro ⟨-, hor⟩
                rcases hor with hsome | hsome
                · simp at hsome
                · simp at hsome
    · have hEq : hasStExc (Fire hook o entry).1 = false := by
        unfold hasStExc
        cases herr : (newDataField entry.data).getError with
        | some err =>
            rw [fire_interfaces, applyStacktrace_nocond_err hook o entry _ _ err hcond herr]
            exact hany1
        | none =>
            rw [fire_interfaces, applyStacktrace_nocond_noerr hook o entry _ _ hcond herr]
            exact hany1
      rw [hEq]
      constructor
      · intro hfalse
        exact absurd hfalse (by simp)
      · rintro ⟨hc, -⟩
        exact absurd hc hcond
  · intro err hncond herr
    constructor
    · rw [fire_culprit, applyStacktrace_nocond_err hook o entry _ _ err hncond herr]
    · unfold hasStExc
      rw [fire_interfaces, applyStacktrace_nocond_err hook o entry _ _ err hncond herr]
      exact hany1

/-- Witness for C5: with stack traces disabled and an entry carrying an error
field, the culprit is the error message and no trace or exception is added. -/
theorem claim_C5_witness :
    (Fire sampleHook sampleOracle entryC5b).1.culprit = errMsg errC5
    ∧ hasStExc (Fire sampleHook sampleOracle entryC5b).1 = false :=
  (claim_C5 sampleHook sampleOracle entryC5b).2 errC5 (by decide) rfl

/-- C6 (confirmed): when the stack-trace block runs on an entry with an error
value, the switch flag on makes Fire append the stack trace, not the
exception descriptor, and set the culprit to the exception type followed by a
colon and the trace culprit; with the flag off it appends the exception
descriptor and sets the culprit to the error message. -/
theorem claim_C6 (hook : Hook) (o : Oracles) (entry : Entry) (err : GoErr)
    (hcond : hook.StacktraceConfiguration.Enable = true
      ∧ entry.level ≤ hook.StacktraceConfiguration.Level)
    (herr : (newDataField entry.data).getError = some err) :
    (hook.StacktraceConfiguration.SwitchExceptionTypeAndMessage = true →
        (Fire hook o entry).1.interfaces =
          (applySpecialFields hook (newDataField entry.data)
            (newPacketSeed o entry)).interfaces
            ++ [PacketInterface.stIface (resolvedStacktrace hook o err)]
        ∧ (∀ ex : Exception, PacketInterface.excIface ex ∉ (Fire hook o entry).1.interfaces)
        ∧ (Fire hook o entry).1.culprit =
            (exceptionOf hook o err).excType ++ ": " ++
              o.culpritOf (resolvedStacktrace hook o err))
    ∧ (hook.StacktraceConfiguration.SwitchExceptionTypeAndMessage = false →
        (Fire hook o entry).1.interfaces =
          (applySpecialFields hook (newDataField entry.data)
            (newPacketSeed o entry)).interfaces
            ++ [PacketInterface.excIface (exceptionOf hook o err)]
        ∧ (Fire hook o entry).1.culprit = errMsg err) := by
  constructor
  · intro hsw
    have hifc : (Fire hook o entry).1.interfaces =
        (applySpecialFields hook (newDataField entry.data)
          (newPacketSeed o entry)).interfaces
          ++ [PacketInterface.stIface (resolvedStacktrace hook o err)] := by
      rw [fire_interfaces, applyStacktrace_cond_err_switch hook o entry _ _ err hcond herr hsw]
    refine ⟨hifc, ?_, ?_⟩
    · intro ex hmem
      rw [hifc] at hmem
      rcases List.mem_append.mp hmem with hm | hm
      · exact applySpecialFields_no_excIface hook (newDataField entry.data)
          (newPacketSeed o entry) rfl ex hm
      · simp at hm
    · rw [fire_culprit, applyStacktrace_cond_err_switch hook o entry _ _ err hcond herr hsw]
  · intro hsw
    constructor
    · rw [fire_interfaces,
        applyStacktrace_cond_err_noswitch hook o entry _ _ err hcond herr hsw]
    · rw [fire_culprit,
        applyStacktrace_cond_err_noswitch hook o entry _ _ err hcond herr hsw]

/-- Witness for C6: an error of type MyError with message boom, the switch
flag on, a fresh capture for the trace and a trace culprit main.run; the
packet culprit is MyError colon main.run rather than boom, and the appended
interface is the stack trace. -/
theorem claim_C6_witness :
    (Fire hookC6 oracleC6 entryC6).1.interfaces =
      (applySpecialFields hookC6 (newDataField entryC6.data)
        (newPacketSeed oracleC6 entryC6)).interfaces
        ++ [PacketInterface.stIface (resolvedStacktrace hookC6 oracleC6 errC6)]
    ∧ (∀ ex : Exception, PacketInterface.excIface ex ∉ (Fire hookC6 oracleC6 entryC6).1.interfaces)
    ∧ (Fire hookC6 oracleC6 entryC6).1.culprit =
        (exceptionOf hookC6 oracleC6 errC6).excType ++ ": " ++
          oracleC6.culpritOf (resolvedStacktrace hookC6 oracleC6 errC6) :=
  (claim_C6 hookC6 oracleC6 entryC6 errC6 (by decide) rfl).1 rfl

end LogrusSentry
